import Mathlib

/-!
Verification development for the DataApp tracking pipeline
(robust_tracker_v5.py, unified_tracker_v2.py, motion_feature_extractor.py).

The Python source computes over IEEE floats; we embed all arithmetic in the
exact rationals.  Euclidean distances use a square root: we model np.sqrt by
ratSqrt, the exact rational square root whenever the argument is the square
of a rational (in particular on every concrete input used in the witnesses
and counterexamples below), and a floor approximation otherwise.  All
comparisons and formulas are translated literally from the source.
-/

unseal Rat.mul Rat.inv Rat.add Rat.sub Rat.ofScientific

set_option maxRecDepth 40000

/-- Largest k not exceeding the fuel bound with k*k ≤ n, by linear search:
a kernel-reducible integer square root. -/
def isqrtGo (n : ℕ) : ℕ → ℕ → ℕ
  | 0, k => k
  | fuel + 1, k => if (k + 1) * (k + 1) ≤ n then isqrtGo n fuel (k + 1) else k

/-- Integer square root (floor), exact on perfect squares. -/
def isqrt (n : ℕ) : ℕ := isqrtGo n n 0

/-- Exact rational square root on perfect squares: for q = a/b in lowest
terms, sqrt(a/b) = sqrt(a*b)/b. -/
def ratSqrt (q : ℚ) : ℚ :=
  (isqrt (q.num.toNat * q.den) : ℚ) / (q.den : ℚ)

/-- Euclidean distance between two points, as computed throughout the
source (np.sqrt(dx**2 + dy**2), scipy cdist euclidean). -/
def distQ (p q : ℚ × ℚ) : ℚ :=
  ratSqrt ((p.1 - q.1) ^ 2 + (p.2 - q.2) ^ 2)

/-- Sum of consecutive position distances (the chained path length used by
RobustTrack.displacement and UnifiedTrack.avg_speed). -/
def chainedDisplacement : List (ℚ × ℚ) → ℚ
  | p :: q :: rest => distQ p q + chainedDisplacement (q :: rest)
  | _ => 0

/-- Raw per-frame blob from the external detector: centroid, bbox (x,y,w,h),
area.  Mirrors the dicts built in process_video_robust. -/
structure Blob where
  centroid : ℚ × ℚ
  bbox : ℚ × ℚ × ℚ × ℚ
  area : ℚ
deriving DecidableEq, Repr

/-- OrganismCandidate dataclass of robust_tracker_v5.py. -/
structure OrganismCandidate where
  frame_idx : ℤ
  centroid : ℚ × ℚ
  bbox : ℚ × ℚ × ℚ × ℚ
  total_area : ℚ
  dark_blobs : List Blob := []
  bright_blobs : List Blob := []
  candidate_type : String := "unknown"
deriving DecidableEq, Repr

/-- MergeParams dataclass of robust_tracker_v5.py. -/
structure MergeParams where
  merge_radius : ℚ := 80
  min_separation : ℚ := 10
deriving DecidableEq, Repr

/-- A dark/bright pair considered by merge_blobs_into_candidates: indices
into the two blob lists, the blobs themselves, and their centroid distance. -/
structure BlobPair where
  d_idx : ℕ
  b_idx : ℕ
  dark : Blob
  bright : Blob
  dist : ℚ
deriving DecidableEq, Repr

/-- All dark-bright pairs within the merge radius, generated dark-major then
bright-minor exactly as the nested loops in merge_blobs_into_candidates. -/
def blobPairs (dark bright : List Blob) (R : ℚ) : List BlobPair :=
  dark.enum.flatMap (fun d =>
    bright.enum.filterMap (fun b =>
      let dq := distQ d.2.centroid b.2.centroid
      if dq ≤ R then some ⟨d.1, b.1, d.2, b.2, dq⟩ else none))

/-- Comparison used by pairs.sort(key=lambda x: x[2]). -/
def pairLE (a b : BlobPair) : Prop := a.dist ≤ b.dist

instance : DecidableRel pairLE := fun a b => by unfold pairLE; infer_instance

instance : IsTotal BlobPair pairLE := ⟨fun a b => le_total a.dist b.dist⟩

instance : IsTrans BlobPair pairLE := ⟨fun _ _ _ h h' => le_trans h h'⟩

/-- pairs.sort(key=lambda x: x[2]): stable sort ascending by distance. -/
def sortPairs (l : List BlobPair) : List BlobPair :=
  l.insertionSort pairLE

/-- Greedy acceptance of pairs, each blob used at most once (the used_dark /
used_bright sets of the source). -/
def selectPairs : List BlobPair → List ℕ → List ℕ → List BlobPair
  | [], _, _ => []
  | p :: rest, ud, ub =>
    if p.d_idx ∈ ud ∨ p.b_idx ∈ ub then selectPairs rest ud ub
    else p :: selectPairs rest (p.d_idx :: ud) (p.b_idx :: ub)

/-- The pairs greedily accepted by merge_blobs_into_candidates. -/
def acceptedPairs (dark bright : List Blob) (R : ℚ) : List BlobPair :=
  selectPairs (sortPairs (blobPairs dark bright R)) [] []

/-- Coupled candidate built from an accepted dark-bright pair: area-weighted
centroid and union bounding box, as in merge_blobs_into_candidates. -/
def mkCoupled (fi : ℤ) (p : BlobPair) : OrganismCandidate :=
  let ta := p.dark.area + p.bright.area
  let cx := (p.dark.centroid.1 * p.dark.area + p.bright.centroid.1 * p.bright.area) / ta
  let cy := (p.dark.centroid.2 * p.dark.area + p.bright.centroid.2 * p.bright.area) / ta
  let x1 := min p.dark.bbox.1 p.bright.bbox.1
  let y1 := min p.dark.bbox.2.1 p.bright.bbox.2.1
  let x2 := max (p.dark.bbox.1 + p.dark.bbox.2.2.1) (p.bright.bbox.1 + p.bright.bbox.2.2.1)
  let y2 := max (p.dark.bbox.2.1 + p.dark.bbox.2.2.2) (p.bright.bbox.2.1 + p.bright.bbox.2.2.2)
  { frame_idx := fi
    centroid := (cx, cy)
    bbox := (x1, y1, x2 - x1, y2 - y1)
    total_area := ta
    dark_blobs := [p.dark]
    bright_blobs := [p.bright]
    candidate_type := "coupled" }

/-- Uncoupled dark blob candidate. -/
def mkDarkOnly (fi : ℤ) (b : Blob) : OrganismCandidate :=
  { frame_idx := fi, centroid := b.centroid, bbox := b.bbox, total_area := b.area
    dark_blobs := [b], bright_blobs := [], candidate_type := "dark_only" }

/-- Uncoupled bright blob candidate. -/
def mkBrightOnly (fi : ℤ) (b : Blob) : OrganismCandidate :=
  { frame_idx := fi, centroid := b.centroid, bbox := b.bbox, total_area := b.area
    dark_blobs := [], bright_blobs := [b], candidate_type := "bright_only" }

/-- merge_blobs_into_candidates of robust_tracker_v5.py: coupled candidates
from the greedy pairing (in accepted order), then unpaired dark blobs in
input order, then unpaired bright blobs in input order. -/
def merge_blobs_into_candidates (dark bright : List Blob) (fi : ℤ) (p : MergeParams) :
    List OrganismCandidate :=
  let accepted := acceptedPairs dark bright p.merge_radius
  let usedD := accepted.map (·.d_idx)
  let usedB := accepted.map (·.b_idx)
  accepted.map (mkCoupled fi)
    ++ (dark.enum.filter (fun x => x.1 ∉ usedD)).map (fun x => mkDarkOnly fi x.2)
    ++ (bright.enum.filter (fun x => x.1 ∉ usedB)).map (fun x => mkBrightOnly fi x.2)

/-! Unified tracker V2 (unified_tracker_v2.py): detection fusion of RT-DETR
appearance detections with motion candidates, and the unified track model. -/

/-- DetectionSource enum. -/
inductive DetectionSource where
  | RTDETR_ONLY | MOTION_ONLY | BOTH_FUSED | MOTION_REINFORCED
deriving DecidableEq, Repr

/-- RTDETRDetection dataclass. -/
structure RTDETRDetection where
  frame_idx : ℤ
  bbox : ℚ × ℚ × ℚ × ℚ
  centroid : ℚ × ℚ
  confidence : ℚ
  class_name : String
deriving DecidableEq, Repr

/-- UnifiedDetection dataclass. -/
structure UnifiedDetection where
  frame_idx : ℤ
  bbox : ℚ × ℚ × ℚ × ℚ
  centroid : ℚ × ℚ
  area : ℚ
  rtdetr_conf : ℚ := 0
  motion_conf : ℚ := 0
  unified_conf : ℚ := 0
  source : DetectionSource := .MOTION_ONLY
  rtdetr_class : Option String := none
  motion_type : Option String := none
deriving DecidableEq, Repr

/-- FusionParams dataclass with its defaults. -/
structure FusionParams where
  iou_threshold : ℚ := 3/10
  distance_threshold : ℚ := 50
  rtdetr_weight : ℚ := 7/10
  motion_weight : ℚ := 3/10
  both_detected_boost : ℚ := 12/10
  motion_only_base_conf : ℚ := 1/2
deriving DecidableEq, Repr

/-- calculate_iou of unified_tracker_v2.py on (x, y, w, h) boxes. -/
def calculate_iou (bbox1 bbox2 : ℚ × ℚ × ℚ × ℚ) : ℚ :=
  let x1 := bbox1.1; let y1 := bbox1.2.1; let w1 := bbox1.2.2.1; let h1 := bbox1.2.2.2
  let x2 := bbox2.1; let y2 := bbox2.2.1; let w2 := bbox2.2.2.1; let h2 := bbox2.2.2.2
  let xi1 := max x1 x2
  let yi1 := max y1 y2
  let xi2 := min (x1 + w1) (x2 + w2)
  let yi2 := min (y1 + h1) (y2 + h2)
  if xi2 ≤ xi1 ∨ yi2 ≤ yi1 then 0
  else
    let inter_area := (xi2 - xi1) * (yi2 - yi1)
    let union_area := w1 * h1 + w2 * h2 - inter_area
    if 0 < union_area then inter_area / union_area else 0

/-- Eligibility of a motion candidate for an appearance detection:
IoU at least the threshold, or centroid distance within the threshold. -/
def eligibleFuse (det : RTDETRDetection) (c : OrganismCandidate) (p : FusionParams) : Prop :=
  p.iou_threshold ≤ calculate_iou det.bbox c.bbox ∨
    distQ det.centroid c.centroid ≤ p.distance_threshold

instance (det : RTDETRDetection) (c : OrganismCandidate) (p : FusionParams) :
    Decidable (eligibleFuse det c p) := by unfold eligibleFuse; infer_instance

/-- Match score iou*0.7 + max(0, 1 - dist/distance_threshold)*0.3. -/
def scoreOf (det : RTDETRDetection) (c : OrganismCandidate) (p : FusionParams) : ℚ :=
  calculate_iou det.bbox c.bbox * (7/10) +
    max 0 (1 - distQ det.centroid c.centroid / p.distance_threshold) * (3/10)

/-- One step of the best-match search over indexed motion candidates:
skip consumed candidates, skip ineligible ones, keep the strictly best
score seen so far (initial best score 0). -/
def findBestStep (det : RTDETRDetection) (used : List ℕ) (p : FusionParams)
    (best : Option (ℕ × OrganismCandidate) × ℚ) (x : ℕ × OrganismCandidate) :
    Option (ℕ × OrganismCandidate) × ℚ :=
  if x.1 ∈ used then best
  else if eligibleFuse det x.2 p then
    let s := scoreOf det x.2 p
    if best.2 < s then (some x, s) else best
  else best

/-- The inner candidate search of fuse_detections for one appearance
detection: the unconsumed eligible candidate of strictly maximal positive
score, earliest index winning ties. -/
def findBest (det : RTDETRDetection) (M : List OrganismCandidate) (used : List ℕ)
    (p : FusionParams) : Option (ℕ × OrganismCandidate) :=
  (M.enum.foldl (findBestStep det used p) (none, 0)).1

/-- Fused detection emitted when an appearance detection matches a motion
candidate: appearance geometry, fixed motion confidence 0.7, combined
confidence capped at 1. -/
def mkFused (fi : ℤ) (det : RTDETRDetection) (c : OrganismCandidate)
    (p : FusionParams) : UnifiedDetection :=
  { frame_idx := fi
    bbox := det.bbox
    centroid := det.centroid
    area := det.bbox.2.2.1 * det.bbox.2.2.2
    rtdetr_conf := det.confidence
    motion_conf := 7/10
    unified_conf :=
      min ((det.confidence * p.rtdetr_weight + (7/10) * p.motion_weight) *
        p.both_detected_boost) 1
    source := .BOTH_FUSED
    rtdetr_class := some det.class_name
    motion_type := some c.candidate_type }

/-- Appearance-only detection emitted when no eligible match is found. -/
def mkRtdetrOnly (fi : ℤ) (det : RTDETRDetection) (p : FusionParams) : UnifiedDetection :=
  { frame_idx := fi
    bbox := det.bbox
    centroid := det.centroid
    area := det.bbox.2.2.1 * det.bbox.2.2.2
    rtdetr_conf := det.confidence
    motion_conf := 0
    unified_conf := det.confidence * p.rtdetr_weight
    source := .RTDETR_ONLY
    rtdetr_class := some det.class_name }

/-- Motion-only detection emitted for a motion candidate never consumed. -/
def mkMotionOnly (fi : ℤ) (p : FusionParams) (c : OrganismCandidate) : UnifiedDetection :=
  { frame_idx := fi
    bbox := c.bbox
    centroid := c.centroid
    area := c.total_area
    rtdetr_conf := 0
    motion_conf := 7/10
    unified_conf := p.motion_only_base_conf * (7/10)
    source := .MOTION_ONLY
    motion_type := some c.candidate_type }

/-- Accumulator of the appearance loop of fuse_detections: consumed motion
indices and emitted detections. -/
structure FuseAcc where
  used : List ℕ := []
  out : List UnifiedDetection := []
deriving DecidableEq, Repr

/-- Processing of one appearance detection in fuse_detections. -/
def fuseStep (fi : ℤ) (p : FusionParams) (M : List OrganismCandidate)
    (acc : FuseAcc) (det : RTDETRDetection) : FuseAcc :=
  match findBest det M acc.used p with
  | some ic => ⟨ic.1 :: acc.used, acc.out ++ [mkFused fi det ic.2 p]⟩
  | none => ⟨acc.used, acc.out ++ [mkRtdetrOnly fi det p]⟩

/-- The consumed motion indices after the appearance loop. -/
def fuseUsed (A : List RTDETRDetection) (M : List OrganismCandidate) (fi : ℤ)
    (p : FusionParams) : List ℕ :=
  (A.foldl (fuseStep fi p M) {}).used

/-- fuse_detections of unified_tracker_v2.py: one output per appearance
detection (fused or appearance-only), then one motion-only output per
motion candidate never consumed, in input order. -/
def fuse_detections (A : List RTDETRDetection) (M : List OrganismCandidate)
    (fi : ℤ) (p : FusionParams) : List UnifiedDetection :=
  let acc := A.foldl (fuseStep fi p M) {}
  acc.out ++ (M.enum.filter (fun x => x.1 ∉ acc.used)).map (fun x => mkMotionOnly fi p x.2)

/-- UnifiedTrack dataclass (the fields the claims consult). -/
structure UnifiedTrack where
  track_id : ℕ
  positions : List (ℚ × ℚ) := []
  frames : List ℤ := []
  bboxes : List (ℚ × ℚ × ℚ × ℚ) := []
  sources : List DetectionSource := []
  confidences : List ℚ := []
  rtdetr_classes : List String := []
  frames_since_detection : ℕ := 0
  is_resting : Bool := false
  rest_zone_center : Option (ℚ × ℚ) := none
  rest_zone_radius : ℚ := 100
deriving DecidableEq, Repr

/-- UnifiedTrackingParams dataclass with its defaults. -/
structure UnifiedTrackingParams where
  max_distance : ℚ := 60
  max_frames_without_detection : ℕ := 90
  min_track_length : ℕ := 5
  min_displacement : ℚ := 10
  min_speed : ℚ := 1/10
  max_speed : ℚ := 50
  initial_rest_radius : ℚ := 100
  max_rest_radius : ℚ := 200
deriving DecidableEq, Repr

/-- UnifiedTrack.length property: len(self.positions). -/
def UnifiedTrack.length (t : UnifiedTrack) : ℕ := t.positions.length

/-- UnifiedTrack.displacement property: start-to-end distance (not the
chained path length). -/
def UnifiedTrack.displacement (t : UnifiedTrack) : ℚ :=
  if t.positions.length < 2 then 0
  else
    match t.positions, t.positions.getLast? with
    | p0 :: _, some pn => distQ pn p0
    | _, _ => 0

/-- UnifiedTrack.avg_speed property: chained path length / (len - 1). -/
def UnifiedTrack.avg_speed (t : UnifiedTrack) : ℚ :=
  if t.positions.length < 2 then 0
  else chainedDisplacement t.positions / ((t.positions.length : ℚ) - 1)

/-- UnifiedTrack.predicted_position: pure velocity extrapolation, with no
rest-zone branch, unlike RobustTrack.predicted_position. -/
def UnifiedTrack.predicted_position (t : UnifiedTrack) : ℚ × ℚ :=
  match t.positions.reverse with
  | p1 :: p2 :: _ => (p1.1 + (p1.1 - p2.1), p1.2 + (p1.2 - p2.2))
  | [p1] => p1
  | [] => (0, 0)

/-- UnifiedTrack.enter_rest_mode: takes the initial radius as an argument
(the caller passes params.initial_rest_radius). -/
def UnifiedTrack.enter_rest_mode (t : UnifiedTrack) (initial_radius : ℚ) : UnifiedTrack :=
  { t with
    is_resting := true
    rest_zone_center := t.positions.getLast?
    rest_zone_radius := initial_radius }

/-- UnifiedTrack.expand_rest_zone: grow by 2 per frame, capped. -/
def UnifiedTrack.expand_rest_zone (t : UnifiedTrack) (max_radius : ℚ) : UnifiedTrack :=
  { t with rest_zone_radius := min (t.rest_zone_radius + 2) max_radius }

/-- UnifiedTrackerV2.finalize: keeps exactly the tracks passing the three
threshold tests, silently discarding the others. -/
def UnifiedTrackerV2.finalize (active completed : List UnifiedTrack)
    (p : UnifiedTrackingParams) : List UnifiedTrack :=
  (active ++ completed).filter (fun t =>
    decide (p.min_track_length ≤ t.length) &&
    decide (p.min_displacement ≤ t.displacement) &&
    decide (p.min_speed ≤ t.avg_speed ∧ t.avg_speed ≤ p.max_speed))

/-! Trajectory classification (phase3_motion_features/motion_feature_extractor.py). -/

/-- MotionMetrics dataclass (the fields consulted by classify_trajectory,
with the same defaults). -/
structure MotionMetrics where
  total_frames : ℕ := 0
  total_distance : ℚ := 0
  displacement : ℚ := 0
  mean_speed : ℚ := 0
  max_speed : ℚ := 0
  min_speed : ℚ := 0
  speed_std : ℚ := 0
  mean_acceleration : ℚ := 0
  max_acceleration : ℚ := 0
  acceleration_events : ℕ := 0
  mean_direction_change : ℚ := 0
  max_direction_change : ℚ := 0
  direction_changes : ℕ := 0
  straightness_index : ℚ := 0
  rest_count : ℕ := 0
  total_rest_frames : ℕ := 0
  mean_rest_duration : ℚ := 0
  burst_count : ℕ := 0
  mean_burst_speed : ℚ := 0
  mean_burst_duration : ℚ := 0
deriving DecidableEq, Repr

/-- TrajectoryType enum. -/
inductive TrajectoryType where
  | stationary | linear | meandering | circular | darting | unknown
deriving DecidableEq, Repr

/-- Condition of the stationary rule in classify_trajectory. -/
def stationaryCond (m : MotionMetrics) : Prop :=
  m.mean_speed < 1 ∧ m.total_distance < 50

/-- Condition of the darting rule in classify_trajectory. -/
def dartingCond (m : MotionMetrics) : Prop :=
  3 ≤ m.burst_count ∧ 2 ≤ m.rest_count

/-- Condition of the linear rule in classify_trajectory. -/
def linearCond (m : MotionMetrics) : Prop :=
  7/10 < m.straightness_index ∧ m.direction_changes < 5

/-- Condition of the circular rule in classify_trajectory. -/
def circularCond (m : MotionMetrics) : Prop :=
  m.straightness_index < 3/10 ∧ m.speed_std < m.mean_speed * (1/2)

/-- Condition of the meandering rule in classify_trajectory. -/
def meanderingCond (m : MotionMetrics) : Prop :=
  2/10 < m.straightness_index ∧ m.straightness_index < 7/10 ∧ 5 ≤ m.direction_changes

instance (m : MotionMetrics) : Decidable (stationaryCond m) := by
  unfold stationaryCond; infer_instance

instance (m : MotionMetrics) : Decidable (dartingCond m) := by
  unfold dartingCond; infer_instance

instance (m : MotionMetrics) : Decidable (linearCond m) := by
  unfold linearCond; infer_instance

instance (m : MotionMetrics) : Decidable (circularCond m) := by
  unfold circularCond; infer_instance

instance (m : MotionMetrics) : Decidable (meanderingCond m) := by
  unfold meanderingCond; infer_instance

/-- classify_trajectory of motion_feature_extractor.py: the fixed if-chain,
first matching rule wins, with its confidence constant. -/
def classify_trajectory (m : MotionMetrics) : TrajectoryType × ℚ :=
  if stationaryCond m then (.stationary, 9/10)
  else if dartingCond m then (.darting, 8/10)
  else if linearCond m then (.linear, 85/100)
  else if circularCond m then (.circular, 7/10)
  else if meanderingCond m then (.meandering, 75/100)
  else (.unknown, 1/2)

/-! Robust tracker V5 (robust_tracker_v5.py): track state, association,
validation, and the per-frame pipeline. -/

/-- RobustTrack dataclass with its field defaults. -/
structure RobustTrack where
  track_id : ℕ
  positions : List (ℚ × ℚ) := []
  frames : List ℤ := []
  bboxes : List (ℚ × ℚ × ℚ × ℚ) := []
  areas : List ℚ := []
  candidate_types : List String := []
  last_seen_frame : ℤ := 0
  frames_since_detection : ℕ := 0
  is_resting : Bool := false
  rest_zone_center : Option (ℚ × ℚ) := none
  rest_zone_radius : ℚ := 100
  is_valid : Bool := false
deriving DecidableEq, Repr

/-- RobustTrackingParams dataclass with its defaults. -/
structure RobustTrackingParams where
  max_distance : ℚ := 60
  max_skip_frames : ℕ := 90
  initial_rest_radius : ℚ := 100
  max_rest_radius : ℚ := 200
  rest_expand_rate : ℚ := 10
  min_track_length : ℕ := 5
  min_displacement : ℚ := 10
  min_speed : ℚ := 1/10
  max_speed : ℚ := 30
deriving DecidableEq, Repr

/-- Track length property: len(self.frames). -/
def RobustTrack.length (t : RobustTrack) : ℕ := t.frames.length

/-- RobustTrack.displacement property. -/
def RobustTrack.displacement (t : RobustTrack) : ℚ :=
  if t.positions.length < 2 then 0 else chainedDisplacement t.positions

/-- RobustTrack.avg_speed property: displacement / (len(positions) - 1). -/
def RobustTrack.avg_speed (t : RobustTrack) : ℚ :=
  if t.positions.length < 2 then 0
  else t.displacement / ((t.positions.length : ℚ) - 1)

/-- RobustTrack.predicted_position: rest-zone center while resting with a
recorded center, else velocity extrapolation from the last two positions,
else the last position, else the origin. -/
def RobustTrack.predicted_position (t : RobustTrack) : ℚ × ℚ :=
  match t.is_resting, t.rest_zone_center with
  | true, some c => c
  | _, _ =>
    match t.positions.reverse with
    | p1 :: p2 :: _ => (p1.1 + (p1.1 - p2.1), p1.2 + (p1.2 - p2.2))
    | [p1] => p1
    | [] => (0, 0)

/-- RobustTrack.update: append the detection to every history list, reset
the age counter and the rest state. -/
def RobustTrack.update (t : RobustTrack) (c : OrganismCandidate) (fi : ℤ) : RobustTrack :=
  { t with
    frames := t.frames ++ [fi]
    positions := t.positions ++ [c.centroid]
    bboxes := t.bboxes ++ [c.bbox]
    areas := t.areas ++ [c.total_area]
    candidate_types := t.candidate_types ++ [c.candidate_type]
    last_seen_frame := fi
    frames_since_detection := 0
    is_resting := false
    rest_zone_center := none }

/-- RobustTrack.enter_rest_mode: note the hardcoded 100.0 radius (the
configured initial_rest_radius parameter is not consulted). -/
def RobustTrack.enter_rest_mode (t : RobustTrack) : RobustTrack :=
  { t with
    is_resting := true
    rest_zone_center :=
      match t.positions.getLast? with
      | some p => some p
      | none => t.rest_zone_center
    rest_zone_radius := 100 }

/-- RobustTrack.expand_rest_zone: grow by 10 per frame, capped. -/
def RobustTrack.expand_rest_zone (t : RobustTrack) (max_radius : ℚ) : RobustTrack :=
  { t with rest_zone_radius := min max_radius (t.rest_zone_radius + 10) }

/-- Aging of an unmatched track in match_candidates_to_tracks: increment the
age counter; keep the track (entering or expanding rest mode) while within
the skip budget, drop it otherwise. -/
def ageOrDrop (t : RobustTrack) (p : RobustTrackingParams) : Option RobustTrack :=
  if t.frames_since_detection + 1 ≤ p.max_skip_frames then
    some (if t.is_resting then
            RobustTrack.expand_rest_zone
              { t with frames_since_detection := t.frames_since_detection + 1 }
              p.max_rest_radius
          else
            RobustTrack.enter_rest_mode
              { t with frames_since_detection := t.frames_since_detection + 1 })
  else none

/-- validate_track of robust_tracker_v5.py. -/
def validate_track (t : RobustTrack) (p : RobustTrackingParams) : Bool :=
  if t.length < p.min_track_length then false
  else if t.displacement < p.min_displacement then false
  else if t.avg_speed < p.min_speed then false
  else if p.max_speed < t.avg_speed then false
  else true

/-- Rest-zone adjusted distance of a candidate to a track: the matrix entry
after the 0.5 boost applied to candidates inside a resting track's zone. -/
def adjustedDist (c : OrganismCandidate) (t : RobustTrack) : ℚ :=
  let d := distQ c.centroid t.predicted_position
  match t.is_resting, t.rest_zone_center with
  | true, some rc => if distQ c.centroid rc ≤ t.rest_zone_radius then d * (1/2) else d
  | _, _ => d

/-- A candidate-track pair surviving the distance cap, with its adjusted
distance. -/
structure MatchPair where
  c_idx : ℕ
  t_idx : ℕ
  cand : OrganismCandidate
  dist : ℚ
deriving DecidableEq, Repr

/-- The candidate pair list of match_candidates_to_tracks: all (candidate,
track) pairs whose adjusted distance is within the track's applicable cap
(rest-zone radius while resting, else max_distance), candidate-major. -/
def genPairs (cands : List OrganismCandidate) (tracks : List RobustTrack)
    (p : RobustTrackingParams) : List MatchPair :=
  cands.enum.flatMap (fun c =>
    tracks.enum.filterMap (fun t =>
      let d := adjustedDist c.2 t.2
      let cap := if t.2.is_resting then t.2.rest_zone_radius else p.max_distance
      if d ≤ cap then some ⟨c.1, t.1, c.2, d⟩ else none))

/-- Comparison used by pairs.sort(key=lambda x: x[2]) in the matcher. -/
def matchLE (a b : MatchPair) : Prop := a.dist ≤ b.dist

instance : DecidableRel matchLE := fun a b => by unfold matchLE; infer_instance

instance : IsTotal MatchPair matchLE := ⟨fun a b => le_total a.dist b.dist⟩

instance : IsTrans MatchPair matchLE := ⟨fun _ _ _ h h' => le_trans h h'⟩

/-- Greedy claim of sorted pairs: accept a pair when neither its candidate
index nor its track index is already claimed. -/
def greedySelect : List MatchPair → List ℕ → List ℕ → List MatchPair
  | [], _, _ => []
  | pr :: rest, uc, ut =>
    if pr.c_idx ∈ uc ∨ pr.t_idx ∈ ut then greedySelect rest uc ut
    else pr :: greedySelect rest (pr.c_idx :: uc) (pr.t_idx :: ut)

/-- The assignment computed by the greedy matching loop. -/
def matchAssign (cands : List OrganismCandidate) (tracks : List RobustTrack)
    (p : RobustTrackingParams) : List MatchPair :=
  greedySelect ((genPairs cands tracks p).insertionSort matchLE) [] []

/-- match_candidates_to_tracks of robust_tracker_v5.py.  Returns the updated
active tracks and the unmatched candidates.  The Python code appends the
matched tracks by iterating a set of small integer indices; we model that
iteration in ascending index order. -/
def match_candidates_to_tracks (cands : List OrganismCandidate)
    (tracks : List RobustTrack) (fi : ℤ) (p : RobustTrackingParams) :
    List RobustTrack × List OrganismCandidate :=
  if tracks.isEmpty then ([], cands)
  else if cands.isEmpty then (tracks.filterMap (fun t => ageOrDrop t p), [])
  else
    let assign := matchAssign cands tracks p
    let aged := tracks.enum.filterMap (fun x =>
      if (assign.find? (fun pr => pr.t_idx == x.1)).isSome then none
      else ageOrDrop x.2 p)
    let matched := tracks.enum.filterMap (fun x =>
      match assign.find? (fun pr => pr.t_idx == x.1) with
      | some pr => some (x.2.update pr.cand fi)
      | none => none)
    let matchedC := assign.map (·.c_idx)
    (aged ++ matched, (cands.enum.filter (fun y => y.1 ∉ matchedC)).map (·.2))

/-- Fresh track as constructed for an unmatched candidate:
RobustTrack(track_id=next_track_id) followed by update(candidate, frame_idx). -/
def newTrack (id : ℕ) (c : OrganismCandidate) (fi : ℤ) : RobustTrack :=
  RobustTrack.update { track_id := id } c fi

/-- One iteration of the frame loop of process_video_robust, after the
per-frame candidates have been produced: association, then new tracks for
unmatched candidates with sequential ids. -/
def stepFrame (cands : List OrganismCandidate) (st : List RobustTrack × ℕ)
    (fi : ℤ) (p : RobustTrackingParams) : List RobustTrack × ℕ :=
  let res := match_candidates_to_tracks cands st.1 fi p
  (res.1 ++ res.2.enum.map (fun k => newTrack (st.2 + k.1) k.2 fi),
   st.2 + res.2.length)

/-- The frame loop of process_video_robust over a list of per-frame
candidate lists, starting at the given frame index. -/
def processFrames : List (List OrganismCandidate) → (List RobustTrack × ℕ) → ℤ →
    RobustTrackingParams → List RobustTrack × ℕ
  | [], st, _, _ => st
  | cs :: rest, st, fi, p => processFrames rest (stepFrame cs st fi p) (fi + 1) p

/-- The validation loop at the end of process_video_robust: every remaining
active track is flagged and appended to completed_tracks, which becomes the
finalized output. -/
def finalizeTracks (tracks : List RobustTrack) (p : RobustTrackingParams) :
    List RobustTrack :=
  tracks.map (fun t => { t with is_valid := validate_track t p })

/-- The track-related behavior of process_video_robust: run the frame loop
from an empty state (next_track_id = 1, frame 0) and finalize. -/
def process_video_robust (framesCands : List (List OrganismCandidate))
    (p : RobustTrackingParams) : List RobustTrack :=
  finalizeTracks (processFrames framesCands ([], 1) 0 p).1 p

example : isqrt 2500 = 50 := by decide

example : ratSqrt 2500 = 50 := by decide

example : distQ (5, 5) (55, 5) = 50 := by decide

example :
    merge_blobs_into_candidates
      [⟨(0, 0), (0, 0, 4, 4), 10⟩] [⟨(30, 40), (28, 38, 4, 4), 30⟩] 0 {} =
    [{ frame_idx := 0, centroid := (45/2, 30), bbox := (0, 0, 32, 42), total_area := 40,
       dark_blobs := [⟨(0, 0), (0, 0, 4, 4), 10⟩], bright_blobs := [⟨(30, 40), (28, 38, 4, 4), 30⟩],
       candidate_type := "coupled" }] := by decide

example :
    (merge_blobs_into_candidates
      [⟨(0, 0), (0, 0, 4, 4), 10⟩] [⟨(300, 400), (298, 398, 4, 4), 30⟩] 0 {}).map
        (·.candidate_type) = ["dark_only", "bright_only"] := by decide

example :
    (fuse_detections
      [{ frame_idx := 0, bbox := (0, 0, 10, 10), centroid := (5, 5), confidence := 9/10,
         class_name := "fish" }]
      [{ frame_idx := 0, centroid := (55, 5), bbox := (100, 100, 10, 10), total_area := 100,
         candidate_type := "dark_only" }]
      0 {}).map (·.source) = [.RTDETR_ONLY, .MOTION_ONLY] := by decide

example :
    (fuse_detections
      [{ frame_idx := 0, bbox := (0, 0, 10, 10), centroid := (5, 5), confidence := 9/10,
         class_name := "fish" }]
      [{ frame_idx := 0, centroid := (5, 5), bbox := (0, 0, 10, 10), total_area := 100,
         candidate_type := "dark_only" }]
      0 {}).map (fun u => (u.source, u.unified_conf)) =
    [(.BOTH_FUSED, 1)] := by decide

example :
    (process_video_robust
      [[{ frame_idx := 0, centroid := (0, 0), bbox := (0, 0, 4, 4), total_area := 10,
          candidate_type := "dark_only" }],
       [],
       [{ frame_idx := 2, centroid := (0, 0), bbox := (0, 0, 4, 4), total_area := 10,
          candidate_type := "dark_only" }]]
      { max_skip_frames := 0 }).map (·.track_id) = [2] := by decide

/-! Claim C9: decision order and (claimed) mutual exclusivity of the
trajectory classification rules. -/

/-- C9 (amended): classify_trajectory applies its rules in the fixed
priority order stationary, darting, linear, circular, meandering, unknown,
the first matching rule winning with its fixed confidence.  The five rule
conditions are not mutually exclusive; the priority order resolves the
overlaps (see the counterexample theorem). -/
theorem classify_trajectory_priority (m : MotionMetrics) :
    (stationaryCond m → classify_trajectory m = (.stationary, 9/10)) ∧
    (¬stationaryCond m → dartingCond m → classify_trajectory m = (.darting, 8/10)) ∧
    (¬stationaryCond m → ¬dartingCond m → linearCond m →
      classify_trajectory m = (.linear, 85/100)) ∧
    (¬stationaryCond m → ¬dartingCond m → ¬linearCond m → circularCond m →
      classify_trajectory m = (.circular, 7/10)) ∧
    (¬stationaryCond m → ¬dartingCond m → ¬linearCond m → ¬circularCond m →
      meanderingCond m → classify_trajectory m = (.meandering, 75/100)) ∧
    (¬stationaryCond m → ¬dartingCond m → ¬linearCond m → ¬circularCond m →
      ¬meanderingCond m → classify_trajectory m = (.unknown, 1/2)) := by
  unfold classify_trajectory
  refine ⟨?_, ?_, ?_, ?_, ?_, ?_⟩ <;> intros <;> simp_all

/-- Metrics record witnessing the darting branch of the classifier. -/
def dartMetrics : MotionMetrics :=
  { mean_speed := 5, total_distance := 400, burst_count := 3, rest_count := 2 }

/-- Witness for C9: the darting rule fires on a concrete record once the
stationary rule fails. -/
theorem classify_trajectory_priority_witness :
    classify_trajectory dartMetrics = (.darting, 8/10) :=
  (classify_trajectory_priority dartMetrics).2.1 (by decide) (by decide)

/-- Metrics record on which both the stationary and the darting conditions
hold simultaneously. -/
def overlapMetrics : MotionMetrics :=
  { mean_speed := 1/2, total_distance := 10, burst_count := 3, rest_count := 2 }

/-- Counterexample for C9: the five rule conditions are not mutually
exclusive — on overlapMetrics both the stationary and the darting
conditions hold (priority makes the result stationary). -/
theorem classify_rules_overlap :
    stationaryCond overlapMetrics ∧ dartingCond overlapMetrics ∧
    classify_trajectory overlapMetrics = (.stationary, 9/10) := by decide

/-! Claim C4: rest-zone radius reset and growth. -/

/-- Parameters with a non-default configured initial rest radius. -/
def c4Params : RobustTrackingParams := { initial_rest_radius := 50 }

/-- A track that was just matched (so not resting) and then misses a frame. -/
def c4Track : RobustTrack := { track_id := 1, positions := [(0, 0)], frames := [0] }

/-- C4 evaluation at the failing input: on the first miss after a match,
RobustTrack.enter_rest_mode resets the rest radius to the hardcoded 100,
not to the configured initial_rest_radius = 50; UnifiedTrack.enter_rest_mode
does use the value its caller passes. -/
theorem rest_radius_reset_hardcoded :
    c4Params.initial_rest_radius = 50 ∧
    (ageOrDrop c4Track c4Params).map (·.rest_zone_radius) = some 100 ∧
    (UnifiedTrack.enter_rest_mode { track_id := 1, positions := [(0, 0)] }
      50).rest_zone_radius = 50 := by decide

/-! Claim C3: predicted positions used in association. -/

/-- C3 (amended): RobustTrack.predicted_position is the rest-zone center
whenever the track is resting with a recorded center, else the linear
velocity extrapolation from the last two positions, else the single known
position, else the origin — a defined result in every case.
UnifiedTrack.predicted_position never consults the rest state: it is the
velocity extrapolation (or last position, or origin) even while resting. -/
theorem predicted_position_spec (t : RobustTrack) (u : UnifiedTrack)
    (c p1 p2 : ℚ × ℚ) (rest : List (ℚ × ℚ)) :
    (t.is_resting = true → t.rest_zone_center = some c →
      t.predicted_position = c) ∧
    (t.is_resting = false ∨ t.rest_zone_center = none →
      ((t.positions.reverse = p1 :: p2 :: rest →
         t.predicted_position = (p1.1 + (p1.1 - p2.1), p1.2 + (p1.2 - p2.2))) ∧
       (t.positions = [p1] → t.predicted_position = p1) ∧
       (t.positions = [] → t.predicted_position = (0, 0)))) ∧
    (u.positions.reverse = p1 :: p2 :: rest →
      u.predicted_position = (p1.1 + (p1.1 - p2.1), p1.2 + (p1.2 - p2.2))) ∧
    (u.positions = [p1] → u.predicted_position = p1) ∧
    (u.positions = [] → u.predicted_position = (0, 0)) := by
  have hred : t.is_resting = false ∨ t.rest_zone_center = none →
      t.predicted_position =
        (match t.positions.reverse with
         | q1 :: q2 :: _ => (q1.1 + (q1.1 - q2.1), q1.2 + (q1.2 - q2.2))
         | [q1] => q1
         | [] => (0, 0)) := by
    intro hg
    unfold RobustTrack.predicted_position
    rcases hg with hg | hg
    · rw [hg]
    · rw [hg]; cases t.is_resting <;> rfl
  refine ⟨?_, ?_, ?_, ?_, ?_⟩
  · intro hr hc
    unfold RobustTrack.predicted_position
    rw [hr, hc]
  · intro hg
    rw [hred hg]
    refine ⟨?_, ?_, ?_⟩
    · intro hp
      rw [hp]
    · intro hp
      rw [hp, List.reverse_singleton]
    · intro hp
      rw [hp, List.reverse_nil]
  · intro hp
    unfold UnifiedTrack.predicted_position
    rw [hp]
  · intro hp
    unfold UnifiedTrack.predicted_position
    rw [hp, List.reverse_singleton]
  · intro hp
    unfold UnifiedTrack.predicted_position
    rw [hp, List.reverse_nil]

/-- A resting robust track with a recorded rest-zone center. -/
def c3Robust : RobustTrack :=
  { track_id := 1, positions := [(0, 0), (3, 4)], frames := [0, 1],
    is_resting := true, rest_zone_center := some (3, 4) }

/-- Witness for C3: on a concrete resting robust track the prediction is
the rest-zone center. -/
theorem predicted_position_spec_witness :
    c3Robust.predicted_position = (3, 4) :=
  (predicted_position_spec c3Robust { track_id := 1 } (3, 4) (0, 0) (0, 0) []).1
    (by decide) (by decide)

/-- A resting unified track whose last velocity is nonzero. -/
def c3Unified : UnifiedTrack :=
  { track_id := 1, positions := [(0, 0), (10, 0)], frames := [0, 1],
    is_resting := true, rest_zone_center := some (10, 0) }

/-- Counterexample for C3: a resting UnifiedTrack is predicted at the
velocity extrapolation (20, 0), not at its rest-zone center (10, 0). -/
theorem unified_prediction_ignores_rest :
    c3Unified.is_resting = true ∧ c3Unified.rest_zone_center = some (10, 0) ∧
    c3Unified.predicted_position = (20, 0) ∧
    c3Unified.predicted_position ≠ (10, 0) := by decide

/-! Claim C2: track validation and retention at finalization. -/

/-- C2 (amended): robust-V5 validation marks a track valid iff length,
chained displacement and mean per-step speed pass the four threshold
tests, and the finalized output retains every track with its flag; a
length-4 track is always invalid when min_track_length = 5.
UnifiedTrackerV2.finalize instead returns only the passing tracks
(judging displacement start-to-end), discarding the others. -/
theorem validator_spec (t : RobustTrack) (tracks : List RobustTrack)
    (u : UnifiedTrack) (active completed : List UnifiedTrack)
    (p : RobustTrackingParams) (q : UnifiedTrackingParams) :
    (validate_track t p = true ↔
      p.min_track_length ≤ t.length ∧ p.min_displacement ≤ t.displacement ∧
      p.min_speed ≤ t.avg_speed ∧ t.avg_speed ≤ p.max_speed) ∧
    (finalizeTracks tracks p =
      tracks.map (fun s => { s with is_valid := validate_track s p })) ∧
    (t.length = 4 → p.min_track_length = 5 → validate_track t p = false) ∧
    (u ∈ UnifiedTrackerV2.finalize active completed q ↔
      u ∈ active ++ completed ∧ q.min_track_length ≤ u.length ∧
      q.min_displacement ≤ u.displacement ∧ q.min_speed ≤ u.avg_speed ∧
      u.avg_speed ≤ q.max_speed) := by
  refine ⟨?_, rfl, ?_, ?_⟩
  · unfold validate_track
    split_ifs with h1 h2 h3 h4 <;> simp_all [not_lt]
  · intro h4 h5
    unfold validate_track
    rw [h4, h5]
    norm_num
  · unfold UnifiedTrackerV2.finalize
    simp only [List.mem_filter, List.mem_append, Bool.and_eq_true, decide_eq_true_eq]
    tauto

/-- A robust track of length 5 passing every validation threshold. -/
def c2Robust : RobustTrack :=
  { track_id := 1, positions := [(0, 0), (10, 0), (20, 0), (30, 0), (40, 0)],
    frames := [0, 1, 2, 3, 4] }

/-- Witness for C2: the concrete track c2Robust validates under the default
parameters. -/
theorem validator_spec_witness : validate_track c2Robust {} = true :=
  (validator_spec c2Robust [] { track_id := 1 } [] [] {} {}).1.mpr (by decide)

/-- A unified track of length 4 with healthy displacement and speed. -/
def c2Unified : UnifiedTrack :=
  { track_id := 1, positions := [(0, 0), (10, 0), (20, 0), (30, 0)],
    frames := [0, 1, 2, 3] }

/-- Counterexample for C2: UnifiedTrackerV2.finalize deletes the failing
length-4 track from its output instead of retaining it flagged invalid. -/
theorem invalid_track_deleted_by_finalize :
    c2Unified.length = 4 ∧
    UnifiedTrackerV2.finalize [c2Unified] [] {} = [] := by decide

/-! Claim C7: merging one dark and one bright blob within the merge radius. -/

/-- C7: for exactly one dark and one bright blob whose centroid distance is
within the merge radius, the merger outputs exactly one coupled candidate
whose centroid is the area-weighted average of the two blob centroids and
whose bounding box is the union box of the two blob boxes. -/
theorem merger_coupled_pair (d b : Blob) (fi : ℤ) (p : MergeParams)
    (h : distQ d.centroid b.centroid ≤ p.merge_radius) :
    merge_blobs_into_candidates [d] [b] fi p =
      [{ frame_idx := fi
         centroid :=
           ((d.centroid.1 * d.area + b.centroid.1 * b.area) / (d.area + b.area),
            (d.centroid.2 * d.area + b.centroid.2 * b.area) / (d.area + b.area))
         bbox :=
           (min d.bbox.1 b.bbox.1, min d.bbox.2.1 b.bbox.2.1,
            max (d.bbox.1 + d.bbox.2.2.1) (b.bbox.1 + b.bbox.2.2.1) -
              min d.bbox.1 b.bbox.1,
            max (d.bbox.2.1 + d.bbox.2.2.2) (b.bbox.2.1 + b.bbox.2.2.2) -
              min d.bbox.2.1 b.bbox.2.1)
         total_area := d.area + b.area
         dark_blobs := [d]
         bright_blobs := [b]
         candidate_type := "coupled" }] := by
  have hpairs : blobPairs [d] [b] p.merge_radius =
      [⟨0, 0, d, b, distQ d.centroid b.centroid⟩] := by
    simp [blobPairs, List.enum, List.enumFrom, h]
  have haccept : acceptedPairs [d] [b] p.merge_radius =
      [⟨0, 0, d, b, distQ d.centroid b.centroid⟩] := by
    unfold acceptedPairs sortPairs
    rw [hpairs]
    simp [selectPairs]
  unfold merge_blobs_into_candidates
  rw [haccept]
  simp [List.enum, List.enumFrom, mkCoupled]

/-- Concrete dark blob for the C7 witness (distance to the bright blob 50). -/
def c7Dark : Blob := ⟨(0, 0), (0, 0, 4, 4), 10⟩

/-- Concrete bright blob for the C7 witness. -/
def c7Bright : Blob := ⟨(30, 40), (28, 38, 4, 4), 30⟩

/-- Witness for C7 at concrete blobs: one coupled candidate at the
area-weighted centroid (45/2, 30) with the union box (0, 0, 32, 42). -/
theorem merger_coupled_pair_witness :
    distQ c7Dark.centroid c7Bright.centroid ≤ MergeParams.merge_radius {} ∧
    merge_blobs_into_candidates [c7Dark] [c7Bright] 0 {} =
      [{ frame_idx := 0, centroid := (45/2, 30), bbox := (0, 0, 32, 42),
         total_area := 40, dark_blobs := [c7Dark], bright_blobs := [c7Bright],
         candidate_type := "coupled" }] :=
  ⟨by decide, (merger_coupled_pair c7Dark c7Bright 0 {} (by decide)).trans (by decide)⟩

/-! Claim C10: shape and output order of the Candidate Merger. -/

/-- The greedy acceptance never invents pairs: its result is a sublist of
the sorted pair list. -/
theorem selectPairs_sublist : ∀ (l : List BlobPair) (ud ub : List ℕ),
    List.Sublist (selectPairs l ud ub) l
  | [], _, _ => List.Sublist.refl []
  | p :: rest, ud, ub => by
    unfold selectPairs
    split_ifs with h
    · exact (selectPairs_sublist rest ud ub).cons p
    · exact (selectPairs_sublist rest (p.d_idx :: ud) (p.b_idx :: ub)).cons₂ p

/-- The accepted pairs are ascending in distance. -/
theorem acceptedPairs_sorted (dark bright : List Blob) (R : ℚ) :
    (acceptedPairs dark bright R).Pairwise pairLE :=
  (List.sorted_insertionSort pairLE (blobPairs dark bright R)).sublist
    (selectPairs_sublist _ [] [])

/-- C10: every merger output contains at most one dark and at most one
bright blob with type coupled, dark_only or bright_only (never multi), and
the output is the coupled candidates in ascending pair-distance order,
then the unpaired dark blobs in input order, then the unpaired bright
blobs in input order. -/
theorem merger_structure (dark bright : List Blob) (fi : ℤ) (p : MergeParams) :
    (∀ c ∈ merge_blobs_into_candidates dark bright fi p,
      c.dark_blobs.length ≤ 1 ∧ c.bright_blobs.length ≤ 1 ∧
      c.candidate_type ≠ "multi" ∧
      (c.candidate_type = "coupled" ∨ c.candidate_type = "dark_only" ∨
        c.candidate_type = "bright_only")) ∧
    merge_blobs_into_candidates dark bright fi p =
      (acceptedPairs dark bright p.merge_radius).map (mkCoupled fi)
        ++ ((dark.enum.filter (fun x =>
              x.1 ∉ (acceptedPairs dark bright p.merge_radius).map BlobPair.d_idx)).map
            (fun x => mkDarkOnly fi x.2))
        ++ ((bright.enum.filter (fun x =>
              x.1 ∉ (acceptedPairs dark bright p.merge_radius).map BlobPair.b_idx)).map
            (fun x => mkBrightOnly fi x.2)) ∧
    (acceptedPairs dark bright p.merge_radius).Pairwise pairLE := by
  refine ⟨?_, rfl, acceptedPairs_sorted dark bright p.merge_radius⟩
  intro c hc
  unfold merge_blobs_into_candidates at hc
  rcases List.mem_append.mp hc with hc | hc
  · rcases List.mem_append.mp hc with hc | hc
    · rcases List.mem_map.mp hc with ⟨pr, _, rfl⟩
      refine ⟨by simp [mkCoupled], by simp [mkCoupled], by simp [mkCoupled], Or.inl rfl⟩
    · rcases List.mem_map.mp hc with ⟨x, _, rfl⟩
      refine ⟨by simp [mkDarkOnly], by simp [mkDarkOnly], by simp [mkDarkOnly], Or.inr (Or.inl rfl)⟩
  · rcases List.mem_map.mp hc with ⟨x, _, rfl⟩
    refine ⟨by simp [mkBrightOnly], by simp [mkBrightOnly], by simp [mkBrightOnly], Or.inr (Or.inr rfl)⟩

/-- Witness inputs for C10: two dark blobs and one bright blob, the bright
one coupling with the nearer dark one. -/
def c10Dark : List Blob := [⟨(0, 0), (0, 0, 4, 4), 10⟩, ⟨(100, 0), (98, 0, 4, 4), 20⟩]

/-- Bright blob close to the second dark blob. -/
def c10Bright : List Blob := [⟨(130, 40), (128, 38, 4, 4), 20⟩]

/-- Witness for C10: on concrete inputs the output is one coupled candidate
followed by the unpaired dark blob, and its head satisfies the shape
bounds. -/
theorem merger_structure_witness :
    ((merge_blobs_into_candidates c10Dark c10Bright 0 {}).map (·.candidate_type) =
      ["coupled", "dark_only"]) ∧
    ({ frame_idx := 0, centroid := (115, 20), bbox := (98, 0, 34, 42),
       total_area := 40,
       dark_blobs := [⟨(100, 0), (98, 0, 4, 4), 20⟩],
       bright_blobs := [⟨(130, 40), (128, 38, 4, 4), 20⟩],
       candidate_type := "coupled" } : OrganismCandidate).dark_blobs.length ≤ 1 :=
  ⟨by decide,
   ((merger_structure c10Dark c10Bright 0 {}).1 _ (by decide)).1⟩

/-! Claims C5 and C6: detection fusion. -/

/-- Invariant of the best-match accumulator after scanning a prefix of the
indexed motion candidates: none means every unconsumed eligible candidate
seen so far scores at most 0; some means the recorded candidate is seen,
unconsumed, eligible, of positive score, and maximal among the seen. -/
def BestInv (det : RTDETRDetection) (used : List ℕ) (p : FusionParams)
    (seen : List (ℕ × OrganismCandidate)) :
    Option (ℕ × OrganismCandidate) × ℚ → Prop
  | (none, s) => s = 0 ∧
      ∀ x ∈ seen, x.1 ∉ used → eligibleFuse det x.2 p → scoreOf det x.2 p ≤ 0
  | (some ic, s) => ic ∈ seen ∧ ic.1 ∉ used ∧ eligibleFuse det ic.2 p ∧
      s = scoreOf det ic.2 p ∧ 0 < s ∧
      ∀ x ∈ seen, x.1 ∉ used → eligibleFuse det x.2 p → scoreOf det x.2 p ≤ s

/-- One search step preserves the best-match invariant. -/
theorem bestInv_step (det : RTDETRDetection) (used : List ℕ) (p : FusionParams)
    (seen : List (ℕ × OrganismCandidate)) (b : Option (ℕ × OrganismCandidate) × ℚ)
    (x : ℕ × OrganismCandidate) (h : BestInv det used p seen b) :
    BestInv det used p (seen ++ [x]) (findBestStep det used p b x) := by
  obtain ⟨ob, s⟩ := b
  unfold findBestStep
  by_cases hu : x.1 ∈ used
  · rw [if_pos hu]
    cases ob with
    | none =>
      refine ⟨h.1, fun y hy hyu hye => ?_⟩
      rcases List.mem_append.mp hy with hy | hy
      · exact h.2 y hy hyu hye
      · rw [List.mem_singleton.mp hy] at hyu; exact absurd hu hyu
    | some ic =>
      obtain ⟨h1, h2, h3, h4, h5, h6⟩ := h
      refine ⟨List.mem_append_left _ h1, h2, h3, h4, h5, fun y hy hyu hye => ?_⟩
      rcases List.mem_append.mp hy with hy | hy
      · exact h6 y hy hyu hye
      · rw [List.mem_singleton.mp hy] at hyu; exact absurd hu hyu
  · rw [if_neg hu]
    by_cases he : eligibleFuse det x.2 p
    · rw [if_pos he]
      cases ob with
      | none =>
        obtain ⟨hs0, hb⟩ := h
        by_cases hs : s < scoreOf det x.2 p
        · rw [if_pos hs]
          refine ⟨List.mem_append_right _ (List.mem_singleton_self x), hu, he, rfl,
            lt_of_le_of_lt (le_of_eq hs0.symm) hs, fun y hy hyu hye => ?_⟩
          rcases List.mem_append.mp hy with hy | hy
          · exact le_trans (hb y hy hyu hye)
              (le_of_lt (lt_of_le_of_lt (le_of_eq hs0.symm) hs))
          · rw [List.mem_singleton.mp hy]
        · rw [if_neg hs]
          push_neg at hs
          refine ⟨hs0, fun y hy hyu hye => ?_⟩
          rcases List.mem_append.mp hy with hy | hy
          · exact hb y hy hyu hye
          · rw [List.mem_singleton.mp hy]; exact le_trans hs (le_of_eq hs0)
      | some ic =>
        obtain ⟨h1, h2, h3, h4, h5, h6⟩ := h
        by_cases hs : s < scoreOf det x.2 p
        · rw [if_pos hs]
          refine ⟨List.mem_append_right _ (List.mem_singleton_self x), hu, he, rfl,
            lt_trans h5 hs, fun y hy hyu hye => ?_⟩
          rcases List.mem_append.mp hy with hy | hy
          · exact le_trans (h6 y hy hyu hye) (le_of_lt hs)
          · rw [List.mem_singleton.mp hy]
        · rw [if_neg hs]
          push_neg at hs
          refine ⟨List.mem_append_left _ h1, h2, h3, h4, h5, fun y hy hyu hye => ?_⟩
          rcases List.mem_append.mp hy with hy | hy
          · exact h6 y hy hyu hye
          · rw [List.mem_singleton.mp hy]; exact hs
    · rw [if_neg he]
      cases ob with
      | none =>
        refine ⟨h.1, fun y hy hyu hye => ?_⟩
        rcases List.mem_append.mp hy with hy | hy
        · exact h.2 y hy hyu hye
        · rw [List.mem_singleton.mp hy] at hye; exact absurd hye he
      | some ic =>
        obtain ⟨h1, h2, h3, h4, h5, h6⟩ := h
        refine ⟨List.mem_append_left _ h1, h2, h3, h4, h5, fun y hy hyu hye => ?_⟩
        rcases List.mem_append.mp hy with hy | hy
        · exact h6 y hy hyu hye
        · rw [List.mem_singleton.mp hy] at hye; exact absurd hye he

/-- The best-match invariant propagates through the fold. -/
theorem bestInv_foldl (det : RTDETRDetection) (used : List ℕ) (p : FusionParams) :
    ∀ (l seen : List (ℕ × OrganismCandidate)) (b : Option (ℕ × OrganismCandidate) × ℚ),
      BestInv det used p seen b →
      BestInv det used p (seen ++ l) (l.foldl (findBestStep det used p) b)
  | [], seen, b, h => by simpa using h
  | x :: xs, seen, b, h => by
    rw [List.foldl_cons, show seen ++ x :: xs = (seen ++ [x]) ++ xs by simp]
    exact bestInv_foldl det used p xs (seen ++ [x]) _ (bestInv_step det used p seen b x h)

/-- Specification of a successful best-match search. -/
theorem findBest_some_spec (det : RTDETRDetection) (M : List OrganismCandidate)
    (used : List ℕ) (p : FusionParams) (i : ℕ) (c : OrganismCandidate)
    (h : findBest det M used p = some (i, c)) :
    (i, c) ∈ M.enum ∧ i ∉ used ∧ eligibleFuse det c p ∧ 0 < scoreOf det c p ∧
    ∀ x ∈ M.enum, x.1 ∉ used → eligibleFuse det x.2 p →
      scoreOf det x.2 p ≤ scoreOf det c p := by
  have hinv := bestInv_foldl det used p M.enum [] (none, 0) ⟨rfl, by simp⟩
  unfold findBest at h
  rcases hr : M.enum.foldl (findBestStep det used p) (none, 0) with ⟨ob, s⟩
  rw [hr] at hinv h
  simp only at h
  subst h
  obtain ⟨h1, h2, h3, h4, h5, h6⟩ := hinv
  simp only [List.nil_append] at h1 h6
  exact ⟨h1, h2, h3, h4 ▸ h5, fun x hx hxu hxe => h4 ▸ h6 x hx hxu hxe⟩

/-- Specification of a failed best-match search: every unconsumed eligible
candidate scores at most 0. -/
theorem findBest_none_spec (det : RTDETRDetection) (M : List OrganismCandidate)
    (used : List ℕ) (p : FusionParams)
    (h : findBest det M used p = none) :
    ∀ x ∈ M.enum, x.1 ∉ used → eligibleFuse det x.2 p → scoreOf det x.2 p ≤ 0 := by
  have hinv := bestInv_foldl det used p M.enum [] (none, 0) ⟨rfl, by simp⟩
  unfold findBest at h
  rcases hr : M.enum.foldl (findBestStep det used p) (none, 0) with ⟨ob, s⟩
  rw [hr] at hinv h
  simp only at h
  subst h
  obtain ⟨h1, h2⟩ := hinv
  simpa using h2

/-- The consumed-index list stays duplicate-free and within bounds through
the appearance loop: each fusion consumes a fresh in-range index. -/
theorem fuse_used_invariant (fi : ℤ) (p : FusionParams) (M : List OrganismCandidate) :
    ∀ (A : List RTDETRDetection) (acc : FuseAcc), acc.used.Nodup →
      (∀ j ∈ acc.used, j < M.length) →
      ((A.foldl (fuseStep fi p M) acc).used.Nodup ∧
       ∀ j ∈ (A.foldl (fuseStep fi p M) acc).used, j < M.length)
  | [], acc, hnd, hlt => ⟨hnd, hlt⟩
  | det :: A, acc, hnd, hlt => by
    rw [List.foldl_cons]
    rcases hf : findBest det M acc.used p with _ | ⟨i, c⟩
    · exact fuse_used_invariant fi p M A _ (by simp [fuseStep, hf, hnd])
        (by simpa [fuseStep, hf] using hlt)
    · obtain ⟨hmem, hnu, _, _, _⟩ := findBest_some_spec det M acc.used p i c hf
      refine fuse_used_invariant fi p M A _ ?_ ?_
      · simp only [fuseStep, hf]
        exact List.Nodup.cons hnu hnd
      · simp only [fuseStep, hf]
        intro j hj
        rcases List.mem_cons.mp hj with rfl | hj
        · exact List.fst_lt_of_mem_enum hmem
        · exact hlt j hj

/-- The appearance loop emits exactly one detection per appearance input. -/
theorem fuse_out_length (fi : ℤ) (p : FusionParams) (M : List OrganismCandidate) :
    ∀ (A : List RTDETRDetection) (acc : FuseAcc),
      ((A.foldl (fuseStep fi p M) acc).out).length = acc.out.length + A.length
  | [], acc => by simp
  | det :: A, acc => by
    rw [List.foldl_cons]
    rcases hf : findBest det M acc.used p with _ | ⟨i, c⟩ <;>
      simp [fuse_out_length fi p M A, fuseStep, hf] <;> omega

/-- Any property holding of every fused and every appearance-only record
propagates to the whole appearance-loop output. -/
theorem fuse_out_invariant (fi : ℤ) (p : FusionParams) (M : List OrganismCandidate)
    (P : UnifiedDetection → Prop)
    (hF : ∀ det c, P (mkFused fi det c p)) (hR : ∀ det, P (mkRtdetrOnly fi det p)) :
    ∀ (A : List RTDETRDetection) (acc : FuseAcc), (∀ u ∈ acc.out, P u) →
      ∀ u ∈ (A.foldl (fuseStep fi p M) acc).out, P u
  | [], acc, hacc => hacc
  | det :: A, acc, hacc => by
    rw [List.foldl_cons]
    rcases hf : findBest det M acc.used p with _ | ⟨i, c⟩ <;>
      refine fuse_out_invariant fi p M P hF hR A _ ?_ <;>
      simp only [fuseStep, hf] <;>
      intro u hu <;>
      rcases List.mem_append.mp hu with hu | hu
    · exact hacc u hu
    · rw [List.mem_singleton.mp hu]; exact hR det
    · exact hacc u hu
    · rw [List.mem_singleton.mp hu]; exact hF det c

/-- Counting lemma: removing a duplicate-free set of present keys from a
keyed list with duplicate-free keys removes exactly that many entries. -/
theorem filter_not_mem_length {α : Type} :
    ∀ (l : List (ℕ × α)) (used : List ℕ), (l.map Prod.fst).Nodup → used.Nodup →
      (∀ j ∈ used, j ∈ l.map Prod.fst) →
      (l.filter (fun x => x.1 ∉ used)).length + used.length = l.length
  | [], used, _, _, hmem => by
    cases used with
    | nil => simp
    | cons j js => exact absurd (hmem j (List.mem_cons_self j js)) (by simp)
  | (k, a) :: l, used, hkeys, hnd, hmem => by
    simp only [List.map_cons, List.nodup_cons] at hkeys
    obtain ⟨hk, hkeys⟩ := hkeys
    by_cases hku : k ∈ used
    · have hfilter : ((k, a) :: l).filter (fun x => x.1 ∉ used) =
          l.filter (fun x => x.1 ∉ used.erase k) := by
        rw [List.filter_cons]
        simp [hku]
        refine List.filter_congr (fun x hx => ?_)
        have hxk : x.1 ≠ k := by
          intro hxe
          exact hk (hxe ▸ List.mem_map_of_mem Prod.fst hx)
        simp [List.mem_erase_of_ne, hxk]
      rw [hfilter]
      have herase := filter_not_mem_length l (used.erase k) hkeys (hnd.erase k)
        (fun j hj => by
          have hjk : j ≠ k := (List.Nodup.mem_erase_iff hnd).mp hj |>.1
          have hju : j ∈ used := (List.Nodup.mem_erase_iff hnd).mp hj |>.2
          rcases List.mem_cons.mp (hmem j hju) with h | h
          · exact absurd h hjk
          · exact h)
      have hlen : (used.erase k).length + 1 = used.length := by
        rw [List.length_erase_of_mem hku]
        have : 0 < used.length := List.length_pos_of_mem hku
        omega
      simp only [List.length_cons]
      omega
    · have hfilter : ((k, a) :: l).filter (fun x => x.1 ∉ used) =
          (k, a) :: l.filter (fun x => x.1 ∉ used) := by
        rw [List.filter_cons]
        simp [hku]
      rw [hfilter]
      have hrec := filter_not_mem_length l used hkeys hnd
        (fun j hj => by
          rcases List.mem_cons.mp (hmem j hj) with h | h
          · exact absurd (by rwa [h] at hj) hku
          · exact h)
      simp only [List.length_cons]
      omega

/-- C6: fusion discards neither signal — each appearance detection yields
exactly one non-motion-only output, each unconsumed motion candidate yields
exactly one motion-only output at motion_only_base_conf * 0.7, appearance-only
outputs carry confidence rtdetr_conf * rtdetr_weight, and the output size is
the inputs sizes minus the number of fused pairs. -/
theorem fusion_conservation (A : List RTDETRDetection) (M : List OrganismCandidate)
    (fi : ℤ) (p : FusionParams) :
    (fuse_detections A M fi p).length + (fuseUsed A M fi p).length =
      A.length + M.length ∧
    ((fuse_detections A M fi p).filter
      (fun u => u.source ≠ DetectionSource.MOTION_ONLY)).length = A.length ∧
    (fuse_detections A M fi p).filter
      (fun u => u.source = DetectionSource.MOTION_ONLY) =
      (M.enum.filter (fun x => x.1 ∉ fuseUsed A M fi p)).map
        (fun x => mkMotionOnly fi p x.2) ∧
    (∀ u ∈ fuse_detections A M fi p,
      (u.source = DetectionSource.RTDETR_ONLY →
        u.unified_conf = u.rtdetr_conf * p.rtdetr_weight) ∧
      (u.source = DetectionSource.MOTION_ONLY →
        u.unified_conf = p.motion_only_base_conf * (7/10))) := by
  have hused := fuse_used_invariant fi p M A {} (by simp) (by simp)
  have hlen := fuse_out_length fi p M A {}
  have hcount := filter_not_mem_length M.enum ((A.foldl (fuseStep fi p M) {}).used)
    (by rw [List.enum_map_fst]; exact List.nodup_range M.length)
    hused.1
    (fun j hj => by rw [List.enum_map_fst]; exact List.mem_range.mpr (hused.2 j hj))
  have hsrc := fuse_out_invariant fi p M
    (fun u => (u.source ≠ DetectionSource.MOTION_ONLY) ∧
      (u.source = DetectionSource.RTDETR_ONLY →
        u.unified_conf = u.rtdetr_conf * p.rtdetr_weight))
    (fun det c => ⟨by simp [mkFused], by simp [mkFused]⟩)
    (fun det => ⟨by simp [mkRtdetrOnly], fun _ => rfl⟩)
    A {} (by simp)
  rw [List.enum_length] at hcount
  have hsplit : fuse_detections A M fi p =
      (A.foldl (fuseStep fi p M) {}).out ++
        ((M.enum.filter (fun x => x.1 ∉ (A.foldl (fuseStep fi p M) {}).used)).map
          (fun x => mkMotionOnly fi p x.2)) := rfl
  have husedeq : fuseUsed A M fi p = (A.foldl (fuseStep fi p M) {}).used := rfl
  have hlenA : ((A.foldl (fuseStep fi p M) {}).out).length = A.length := by
    rw [hlen]; simp
  have hfilter1 :
      ((A.foldl (fuseStep fi p M) {}).out).filter
        (fun u => u.source ≠ DetectionSource.MOTION_ONLY) =
      (A.foldl (fuseStep fi p M) {}).out :=
    List.filter_eq_self.mpr (fun u hu => by simpa using (hsrc u hu).1)
  have hfilter2 :
      (((M.enum.filter (fun x => x.1 ∉ (A.foldl (fuseStep fi p M) {}).used)).map
        (fun x => mkMotionOnly fi p x.2)).filter
          (fun u => u.source ≠ DetectionSource.MOTION_ONLY)) = [] := by
    rw [List.filter_eq_nil_iff]
    intro u hu
    rcases List.mem_map.mp hu with ⟨x, _, rfl⟩
    simp [mkMotionOnly]
  have hfilter3 :
      ((A.foldl (fuseStep fi p M) {}).out).filter
        (fun u => u.source = DetectionSource.MOTION_ONLY) = [] := by
    rw [List.filter_eq_nil_iff]
    intro u hu
    simpa using (hsrc u hu).1
  have hfilter4 :
      (((M.enum.filter (fun x => x.1 ∉ (A.foldl (fuseStep fi p M) {}).used)).map
        (fun x => mkMotionOnly fi p x.2)).filter
          (fun u => u.source = DetectionSource.MOTION_ONLY)) =
      ((M.enum.filter (fun x => x.1 ∉ (A.foldl (fuseStep fi p M) {}).used)).map
        (fun x => mkMotionOnly fi p x.2)) :=
    List.filter_eq_self.mpr (fun u hu => by
      rcases List.mem_map.mp hu with ⟨x, _, rfl⟩
      simp [mkMotionOnly])
  refine ⟨?_, ?_, ?_, ?_⟩
  · rw [hsplit, husedeq, List.length_append, List.length_map]
    omega
  · rw [hsplit, List.filter_append, hfilter1, hfilter2, List.append_nil, hlenA]
  · rw [hsplit, husedeq, List.filter_append, hfilter3, hfilter4, List.nil_append]
  · intro u hu
    rw [hsplit] at hu
    rcases List.mem_append.mp hu with hu | hu
    · exact ⟨(hsrc u hu).2, fun hm => absurd hm (hsrc u hu).1⟩
    · rcases List.mem_map.mp hu with ⟨x, _, rfl⟩
      exact ⟨fun hr => by simp [mkMotionOnly] at hr, fun _ => rfl⟩

/-- Concrete appearance detection for the fusion witnesses. -/
def c6Det : RTDETRDetection :=
  { frame_idx := 0, bbox := (0, 0, 10, 10), centroid := (5, 5), confidence := 1/2,
    class_name := "fish" }

/-- Motion candidate overlapping c6Det exactly. -/
def c6Cand : OrganismCandidate :=
  { frame_idx := 0, centroid := (5, 5), bbox := (0, 0, 10, 10), total_area := 100,
    candidate_type := "coupled" }

/-- Far-away motion candidate (never fused). -/
def c6Far : OrganismCandidate :=
  { frame_idx := 0, centroid := (500, 500), bbox := (495, 495, 10, 10),
    total_area := 100, candidate_type := "dark_only" }

/-- Witness for C6 on concrete inputs: one appearance detection and two
motion candidates, one fused, so the output has 1 + 2 - 1 + 1 = 2 entries
split between non-motion and motion-only, and the motion-only confidence
is motion_only_base_conf * 0.7. -/
theorem fusion_conservation_witness :
    (fuse_detections [c6Det] [c6Cand, c6Far] 0 {}).length +
      (fuseUsed [c6Det] [c6Cand, c6Far] 0 {}).length = 1 + 2 ∧
    (mkMotionOnly 0 {} c6Far).unified_conf =
      FusionParams.motion_only_base_conf {} * (7/10) :=
  ⟨(fusion_conservation [c6Det] [c6Cand, c6Far] 0 {}).1,
   ((fusion_conservation [c6Det] [c6Cand, c6Far] 0 {}).2.2.2
     (mkMotionOnly 0 {} c6Far) (by decide)).2 (by decide)⟩

/-- C5 (amended): an eligible motion candidate has IoU at least iou_threshold
or centroid distance within distance_threshold; fuse_detections fuses the
unconsumed eligible candidate maximizing the score 0.7*IoU + 0.3*max(0,
1 - dist/threshold) PROVIDED that maximum is strictly positive (an eligible
candidate scoring exactly 0 is not fused — see the counterexample); the
fused record carries the appearance geometry and the capped combined
confidence, and a consumed candidate is never fused twice. -/
theorem fusion_selection_spec (det : RTDETRDetection) (M : List OrganismCandidate)
    (used : List ℕ) (p : FusionParams) (A : List RTDETRDetection) (fi : ℤ)
    (i : ℕ) (c : OrganismCandidate) :
    (findBest det M used p = some (i, c) →
      ((i, c) ∈ M.enum ∧ i ∉ used ∧ eligibleFuse det c p ∧ 0 < scoreOf det c p ∧
       ∀ x ∈ M.enum, x.1 ∉ used → eligibleFuse det x.2 p →
         scoreOf det x.2 p ≤ scoreOf det c p)) ∧
    (findBest det M used p = none →
      ∀ x ∈ M.enum, x.1 ∉ used → eligibleFuse det x.2 p → scoreOf det x.2 p ≤ 0) ∧
    (fuseUsed A M fi p).Nodup ∧
    ((mkFused fi det c p).bbox = det.bbox ∧
     (mkFused fi det c p).centroid = det.centroid ∧
     (mkFused fi det c p).unified_conf =
       min ((det.confidence * p.rtdetr_weight + (7/10) * p.motion_weight) *
         p.both_detected_boost) 1 ∧
     (mkFused fi det c p).source = DetectionSource.BOTH_FUSED) :=
  ⟨findBest_some_spec det M used p i c, findBest_none_spec det M used p,
   (fuse_used_invariant fi p M A {} (by simp) (by simp)).1,
   rfl, rfl, rfl, rfl⟩

/-- Appearance detection for the C5 scenarios. -/
def c5Det : RTDETRDetection :=
  { frame_idx := 0, bbox := (0, 0, 10, 10), centroid := (5, 5), confidence := 9/10,
    class_name := "fish" }

/-- Overlapping motion candidate with positive score. -/
def c5Near : OrganismCandidate :=
  { frame_idx := 0, centroid := (5, 5), bbox := (0, 0, 10, 10), total_area := 80,
    candidate_type := "coupled" }

/-- Witness for C5: on a concrete input findBest selects the eligible,
strictly positive score candidate. -/
theorem fusion_selection_spec_witness :
    eligibleFuse c5Det c5Near {} ∧ 0 < scoreOf c5Det c5Near {} :=
  ⟨((fusion_selection_spec c5Det [c5Near] [] {} [] 0 0 c5Near).1 (by decide)).2.2.1,
   ((fusion_selection_spec c5Det [c5Near] [] {} [] 0 0 c5Near).1 (by decide)).2.2.2.1⟩

/-- Motion candidate with zero IoU at centroid distance exactly the
distance threshold: eligible, but scoring exactly 0. -/
def c5Cand : OrganismCandidate :=
  { frame_idx := 0, centroid := (55, 5), bbox := (100, 100, 10, 10),
    total_area := 100, candidate_type := "dark_only" }

/-- Counterexample for C5: c5Cand is eligible (distance 50 = threshold) yet
no fusion happens, because its score 0.7*0 + 0.3*(1 - 50/50) = 0 is not
strictly greater than the initial best score 0; the output is an
appearance-only plus a motion-only record instead of a fused one. -/
theorem eligible_zero_score_not_fused :
    eligibleFuse c5Det c5Cand {} ∧
    (fuse_detections [c5Det] [c5Cand] 0 {}).map (·.source) =
      [DetectionSource.RTDETR_ONLY, DetectionSource.MOTION_ONLY] := by decide

/-! Claims C8 and C1: per-frame track state invariants and the fate of
tracks that exceed the skip budget. -/

/-- A kept aged track has its counter incremented, is resting, is within
the budget, and keeps its id. -/
theorem ageOrDrop_some_spec (t : RobustTrack) (p : RobustTrackingParams)
    (t' : RobustTrack) (h : ageOrDrop t p = some t') :
    t'.frames_since_detection = t.frames_since_detection + 1 ∧
    t'.is_resting = true ∧
    t'.frames_since_detection ≤ p.max_skip_frames ∧
    t'.track_id = t.track_id := by
  unfold ageOrDrop at h
  by_cases hle : t.frames_since_detection + 1 ≤ p.max_skip_frames
  · rw [if_pos hle] at h
    cases hres : t.is_resting <;> rw [hres] at h <;>
      simp only [Bool.false_eq_true, if_false, eq_self_iff_true, if_true,
        Option.some.injEq] at h <;>
      subst h <;>
      exact ⟨rfl, rfl, hle, rfl⟩
  · rw [if_neg hle] at h
    exact absurd h (by simp)

/-- A track already at or beyond the skip budget is dropped by the aging
step: its incremented counter exceeds the budget. -/
theorem ageOrDrop_none_of_exceeded (t : RobustTrack) (p : RobustTrackingParams)
    (h : p.max_skip_frames ≤ t.frames_since_detection) :
    ageOrDrop t p = none := by
  unfold ageOrDrop
  rw [if_neg (by omega)]

/-- Every track in the output of the association step comes from an input
track, either aged (no match this frame) or updated with a candidate. -/
theorem mem_match_tracks (cands : List OrganismCandidate) (tracks : List RobustTrack)
    (fi : ℤ) (p : RobustTrackingParams) (t' : RobustTrack)
    (h : t' ∈ (match_candidates_to_tracks cands tracks fi p).1) :
    ∃ t, t ∈ tracks ∧
      (ageOrDrop t p = some t' ∨ ∃ c, t' = RobustTrack.update t c fi) := by
  unfold match_candidates_to_tracks at h
  split_ifs at h with h1 h2
  · simp at h
  · rcases List.mem_filterMap.mp h with ⟨t, ht, hage⟩
    exact ⟨t, ht, Or.inl hage⟩
  · rcases List.mem_append.mp h with h | h
    · rcases List.mem_filterMap.mp h with ⟨x, hx, hsome⟩
      rcases hfind : (matchAssign cands tracks p).find? (fun pr => pr.t_idx == x.1)
        with _ | pr
      · rw [hfind] at hsome
        simp only [Option.isSome_none, Bool.false_eq_true, if_false] at hsome
        exact ⟨x.2, List.snd_mem_of_mem_enum hx, Or.inl hsome⟩
      · rw [hfind] at hsome
        simp at hsome
    · rcases List.mem_filterMap.mp h with ⟨x, hx, hsome⟩
      rcases hfind : (matchAssign cands tracks p).find? (fun pr => pr.t_idx == x.1)
        with _ | pr
      · rw [hfind] at hsome
        simp at hsome
      · rw [hfind] at hsome
        injection hsome with hsome
        exact ⟨x.2, List.snd_mem_of_mem_enum hx, Or.inr ⟨pr.cand, hsome.symm⟩⟩

/-- C8: after a frame step, a track is resting iff it has gone at least one
frame without a match, every surviving track is within the skip budget, and
frames_since_detection is 0 exactly on the tracks updated with a detection
this frame (matched or newly created), otherwise the predecessor value
plus one. -/
theorem frame_step_age_rest_invariant (cands : List OrganismCandidate)
    (st : List RobustTrack × ℕ) (fi : ℤ) (p : RobustTrackingParams)
    (t' : RobustTrack) (h : t' ∈ (stepFrame cands st fi p).1) :
    (t'.is_resting = true ↔ 1 ≤ t'.frames_since_detection) ∧
    t'.frames_since_detection ≤ p.max_skip_frames ∧
    ((∃ t c, t' = RobustTrack.update t c fi) ∧ t'.frames_since_detection = 0 ∨
     ∃ t, t ∈ st.1 ∧ ageOrDrop t p = some t' ∧
       t'.frames_since_detection = t.frames_since_detection + 1) := by
  unfold stepFrame at h
  rcases List.mem_append.mp h with h | h
  · rcases mem_match_tracks _ _ _ _ _ h with ⟨t, ht, hage | ⟨c, rfl⟩⟩
    · obtain ⟨h1, h2, h3, _⟩ := ageOrDrop_some_spec t p t' hage
      exact ⟨⟨fun _ => by omega, fun _ => h2⟩, h3, Or.inr ⟨t, ht, hage, h1⟩⟩
    · refine ⟨?_, ?_, Or.inl ⟨⟨t, c, rfl⟩, rfl⟩⟩
      · simp [RobustTrack.update]
      · exact Nat.zero_le _
  · rcases List.mem_map.mp h with ⟨k, _, rfl⟩
    refine ⟨?_, ?_, Or.inl ⟨⟨_, k.2, rfl⟩, rfl⟩⟩
    · simp [newTrack, RobustTrack.update]
    · exact Nat.zero_le _

/-- A freshly aged concrete track as produced by a missed frame. -/
def c8Aged : RobustTrack :=
  { track_id := 1, positions := [(0, 0)], frames := [0],
    bboxes := [(0, 0, 4, 4)], areas := [10], candidate_types := ["dark_only"],
    last_seen_frame := 0, frames_since_detection := 1, is_resting := true,
    rest_zone_center := some (0, 0), rest_zone_radius := 100 }

/-- Witness for C8 at a concrete frame step with no detections: the aged
track satisfies the resting-age equivalence. -/
theorem frame_step_age_rest_invariant_witness :
    c8Aged.is_resting = true ↔ 1 ≤ c8Aged.frames_since_detection :=
  (frame_step_age_rest_invariant []
    ([{ track_id := 1, positions := [(0, 0)], frames := [0],
        bboxes := [(0, 0, 4, 4)], areas := [10],
        candidate_types := ["dark_only"] }], 2) 1 {} c8Aged (by decide)).1

/-- The association step never invents track ids: every output track keeps
the id of an input track. -/
theorem match_preserves_ids (cands : List OrganismCandidate)
    (tracks : List RobustTrack) (fi : ℤ) (p : RobustTrackingParams)
    (t' : RobustTrack) (h : t' ∈ (match_candidates_to_tracks cands tracks fi p).1) :
    ∃ t, t ∈ tracks ∧ t'.track_id = t.track_id := by
  rcases mem_match_tracks _ _ _ _ _ h with ⟨t, ht, hage | ⟨c, rfl⟩⟩
  · exact ⟨t, ht, (ageOrDrop_some_spec t p t' hage).2.2.2⟩
  · exact ⟨t, ht, rfl⟩

/-- A frame step keeps an absent id absent: surviving tracks keep old ids
and new tracks receive ids at or above the id counter. -/
theorem stepFrame_id_free (cands : List OrganismCandidate)
    (st : List RobustTrack × ℕ) (fi : ℤ) (p : RobustTrackingParams) (id : ℕ)
    (hfree : ∀ t ∈ st.1, t.track_id ≠ id) (hlt : id < st.2) :
    (∀ t ∈ (stepFrame cands st fi p).1, t.track_id ≠ id) ∧
    id < (stepFrame cands st fi p).2 := by
  constructor
  · intro t' ht'
    unfold stepFrame at ht'
    rcases List.mem_append.mp ht' with h | h
    · rcases match_preserves_ids _ _ _ _ _ h with ⟨t, ht, heq⟩
      rw [heq]
      exact hfree t ht
    · rcases List.mem_map.mp h with ⟨k, _, rfl⟩
      show st.2 + k.1 ≠ id
      omega
  · exact lt_of_lt_of_le hlt (Nat.le_add_right _ _)

/-- An id absent from the active set and below the id counter never
reappears in any later active set. -/
theorem processFrames_id_free (p : RobustTrackingParams) :
    ∀ (fcs : List (List OrganismCandidate)) (st : List RobustTrack × ℕ)
      (fi : ℤ) (id : ℕ),
      (∀ t ∈ st.1, t.track_id ≠ id) → id < st.2 →
      (∀ t ∈ (processFrames fcs st fi p).1, t.track_id ≠ id) ∧
      id < (processFrames fcs st fi p).2
  | [], _, _, _, hfree, hlt => ⟨hfree, hlt⟩
  | cs :: rest, st, fi, id, hfree, hlt => by
    have hstep := stepFrame_id_free cs st fi p id hfree hlt
    exact processFrames_id_free p rest _ _ id hstep.1 hstep.2

/-- C1 (amended): a track at the skip budget is dropped by the next miss
(ageOrDrop returns none), every track in the active set is within the
budget (so an over-budget track is excluded from all future distance
computations and is never updated again), a dropped id never reappears in
any later active set, and finalization only re-flags the final active set —
so, contrary to the claim, a frozen track is NOT retained in the finalized
output (see the counterexample). -/
theorem budget_exceeded_track_never_updated (p : RobustTrackingParams) :
    (∀ t, p.max_skip_frames ≤ t.frames_since_detection → ageOrDrop t p = none) ∧
    (∀ cands tracks fi (t' : RobustTrack),
      t' ∈ (match_candidates_to_tracks cands tracks fi p).1 →
      t'.frames_since_detection ≤ p.max_skip_frames) ∧
    (∀ fcs st fi (id : ℕ), (∀ t ∈ st.1, t.track_id ≠ id) → id < st.2 →
      ∀ t ∈ (processFrames fcs st fi p).1, t.track_id ≠ id) ∧
    (∀ tracks, (finalizeTracks tracks p).map RobustTrack.track_id =
      tracks.map RobustTrack.track_id) := by
  refine ⟨fun t h => ageOrDrop_none_of_exceeded t p h, ?_, ?_, ?_⟩
  · intro cands tracks fi t' h
    rcases mem_match_tracks _ _ _ _ _ h with ⟨t, _, hage | ⟨c, rfl⟩⟩
    · exact (ageOrDrop_some_spec t p t' hage).2.2.1
    · exact Nat.zero_le _
  · intro fcs st fi id hfree hlt
    exact (processFrames_id_free p fcs st fi id hfree hlt).1
  · intro tracks
    unfold finalizeTracks
    rw [List.map_map]
    rfl

/-- Candidate at the origin appearing in a given frame. -/
def c1Cand (fi : ℤ) : OrganismCandidate :=
  { frame_idx := fi, centroid := (0, 0), bbox := (0, 0, 4, 4), total_area := 10,
    candidate_type := "dark_only" }

/-- Witness for C1: starting with no active tracks and id counter 2, the id
1 never reappears; in particular the track created for the frame-0
candidate does not carry it. -/
theorem budget_exceeded_track_never_updated_witness :
    (newTrack 2 (c1Cand 0) 0).track_id ≠ 1 :=
  (budget_exceeded_track_never_updated {}).2.2.1 [[c1Cand 0]] ([], 2) 0 1
    (by simp) (by decide) (newTrack 2 (c1Cand 0) 0) (by decide)

/-- Counterexample for C1: with max_skip_frames = 0 the track created at
frame 0 (id 1) exceeds its budget at the empty frame 1 and is frozen; a
matching candidate at frame 2 instead creates the new track id 2, and the
finalized output contains only id 2 — the frozen track is not retained in
the output. -/
theorem frozen_track_absent_from_output :
    (processFrames [[c1Cand 0]] ([], 1) 0 { max_skip_frames := 0 }).1.map
      RobustTrack.track_id = [1] ∧
    (process_video_robust [[c1Cand 0], [], [c1Cand 2]]
      { max_skip_frames := 0 }).map RobustTrack.track_id = [2] := by decide
